import Mathlib

/-!
Verification of the headless-browser rendering pool, task queue and
cross-process delivery relay of the tier-list backend
(`src/services/puppeteerPool.service.ts`, `src/services/imageQueueService.ts`,
`src/services/simpleBotMessaging.service.ts`, `src/utils/bufferTest.ts`).

Buffers are modelled as `List Nat` with every byte `< 256`; maps keep JS
`Map` insertion-order semantics as association lists; the event-driven
control flow is modelled either as executable state-passing functions or as
small-step relations whose steps are the synchronous segments between
`await` points of the source.
-/

namespace Base64

/-- The standard base64 alphabet used by Node's `Buffer.toString('base64')`. -/
def alphabet : List Char :=
  ['A', 'B', 'C', 'D', 'E', 'F', 'G', 'H', 'I', 'J', 'K', 'L', 'M',
   'N', 'O', 'P', 'Q', 'R', 'S', 'T', 'U', 'V', 'W', 'X', 'Y', 'Z',
   'a', 'b', 'c', 'd', 'e', 'f', 'g', 'h', 'i', 'j', 'k', 'l', 'm',
   'n', 'o', 'p', 'q', 'r', 's', 't', 'u', 'v', 'w', 'x', 'y', 'z',
   '0', '1', '2', '3', '4', '5', '6', '7', '8', '9', '+', '/']

/-- Character for a six-bit group. -/
def sextetChar (s : Nat) : Char := alphabet.getD s 'A'

def charValAux : List Char → Nat → Char → Nat
  | [], _, _ => 64
  | a :: rest, i, c => if a = c then i else charValAux rest (i + 1) c

/-- Six-bit value of an alphabet character (inverse table lookup of the
decoder, `Buffer.from(s, 'base64')`). -/
def charVal (c : Char) : Nat := charValAux alphabet 0 c

/-- Node's base64 encoder (`buffer.toString('base64')`): three bytes become
four sextet characters; a one- or two-byte tail is padded with `=`. -/
def encodeB64 : List Nat → List Char
  | [] => []
  | [b1] => [sextetChar (b1 / 4), sextetChar (b1 % 4 * 16), '=', '=']
  | [b1, b2] => [sextetChar (b1 / 4), sextetChar (b1 % 4 * 16 + b2 / 16),
                 sextetChar (b2 % 16 * 4), '=']
  | b1 :: b2 :: b3 :: rest =>
      sextetChar (b1 / 4) :: sextetChar (b1 % 4 * 16 + b2 / 16) ::
      sextetChar (b2 % 16 * 4 + b3 / 64) :: sextetChar (b3 % 64) :: encodeB64 rest

/-- Node's base64 decoder (`Buffer.from(s, 'base64')`) on canonical padded
input: four characters become three bytes, with `=` padding marking a one- or
two-byte final group. -/
def decodeB64 : List Char → List Nat
  | c1 :: c2 :: c3 :: c4 :: rest =>
      if c3 = '=' then [charVal c1 * 4 + charVal c2 / 16]
      else if c4 = '=' then
        [charVal c1 * 4 + charVal c2 / 16, charVal c2 % 16 * 16 + charVal c3 / 4]
      else
        (charVal c1 * 4 + charVal c2 / 16) ::
        (charVal c2 % 16 * 16 + charVal c3 / 4) ::
        (charVal c3 % 4 * 64 + charVal c4) :: decodeB64 rest
  | _ => []

theorem charVal_sextetChar : ∀ s < 64, charVal (sextetChar s) = s := by decide

theorem sextetChar_ne_pad : ∀ s < 64, sextetChar s ≠ '=' := by decide

theorem decodeB64_encodeB64 :
    ∀ b : List Nat, (∀ x ∈ b, x < 256) → decodeB64 (encodeB64 b) = b
  | [], _ => rfl
  | [b1], h => by
      have h1 : b1 < 256 := h b1 (by simp)
      simp only [encodeB64, decodeB64, if_true]
      rw [charVal_sextetChar (b1 / 4) (by omega),
          charVal_sextetChar (b1 % 4 * 16) (by omega)]
      simp only [List.cons.injEq, and_true]
      omega
  | [b1, b2], h => by
      have h1 : b1 < 256 := h b1 (by simp)
      have h2 : b2 < 256 := h b2 (by simp)
      simp only [encodeB64, decodeB64]
      rw [if_neg (sextetChar_ne_pad (b2 % 16 * 4) (by omega))]
      simp only [if_true]
      rw [charVal_sextetChar (b1 / 4) (by omega),
          charVal_sextetChar (b1 % 4 * 16 + b2 / 16) (by omega),
          charVal_sextetChar (b2 % 16 * 4) (by omega)]
      simp only [List.cons.injEq, and_true]
      omega
  | b1 :: b2 :: b3 :: r1 :: rest, h => by
      have h1 : b1 < 256 := h b1 (by simp)
      have h2 : b2 < 256 := h b2 (by simp)
      have h3 : b3 < 256 := h b3 (by simp)
      have ih := decodeB64_encodeB64 (r1 :: rest) (fun x hx => h x (by simp [hx]))
      simp only [encodeB64, decodeB64]
      rw [if_neg (sextetChar_ne_pad (b2 % 16 * 4 + b3 / 64) (by omega)),
          if_neg (sextetChar_ne_pad (b3 % 64) (by omega))]
      rw [charVal_sextetChar (b1 / 4) (by omega),
          charVal_sextetChar (b1 % 4 * 16 + b2 / 16) (by omega),
          charVal_sextetChar (b2 % 16 * 4 + b3 / 64) (by omega),
          charVal_sextetChar (b3 % 64) (by omega)]
      rw [ih]
      simp only [List.cons.injEq, eq_self_iff_true, and_true]
      omega
  | [b1, b2, b3], h => by
      have h1 : b1 < 256 := h b1 (by simp)
      have h2 : b2 < 256 := h b2 (by simp)
      have h3 : b3 < 256 := h b3 (by simp)
      simp only [encodeB64, decodeB64]
      rw [if_neg (sextetChar_ne_pad (b2 % 16 * 4 + b3 / 64) (by omega)),
          if_neg (sextetChar_ne_pad (b3 % 64) (by omega))]
      rw [charVal_sextetChar (b1 / 4) (by omega),
          charVal_sextetChar (b1 % 4 * 16 + b2 / 16) (by omega),
          charVal_sextetChar (b2 % 16 * 4 + b3 / 64) (by omega),
          charVal_sextetChar (b3 % 64) (by omega)]
      simp only [List.cons.injEq, and_true]
      omega

/-- C8: the relay's transport encoding round-trips exactly: decoding the
base64 string produced from a byte buffer `b` yields `b` byte for byte, so in
particular the length and the three leading signature bytes survive the
relay boundary, and re-encoding the decoded buffer reproduces the original
base64 string. -/
theorem C8_roundtrip (b : List Nat) (hb : ∀ x ∈ b, x < 256) :
    decodeB64 (encodeB64 b) = b ∧
    encodeB64 (decodeB64 (encodeB64 b)) = encodeB64 b ∧
    (decodeB64 (encodeB64 b)).length = b.length ∧
    (decodeB64 (encodeB64 b)).take 3 = b.take 3 := by
  have h := decodeB64_encodeB64 b hb
  exact ⟨h, by rw [h], by rw [h], by rw [h]⟩

/-- Witness for C8 on a concrete JPEG-headed buffer. -/
theorem C8_roundtrip_witness :
    decodeB64 (encodeB64 [255, 216, 255, 7, 0]) = [255, 216, 255, 7, 0] ∧
    encodeB64 (decodeB64 (encodeB64 [255, 216, 255, 7, 0])) =
      encodeB64 [255, 216, 255, 7, 0] ∧
    (decodeB64 (encodeB64 [255, 216, 255, 7, 0])).length =
      ([255, 216, 255, 7, 0] : List Nat).length ∧
    (decodeB64 (encodeB64 [255, 216, 255, 7, 0])).take 3 =
      ([255, 216, 255, 7, 0] : List Nat).take 3 :=
  C8_roundtrip [255, 216, 255, 7, 0] (by decide)

end Base64

namespace Pool

/-! Model of `PuppeteerPoolService` (`src/services/puppeteerPool.service.ts`).
`BrowserInstance` mirrors the interface of the same name; the `pages`
`Map<string, Page>` is kept as the insertion-ordered list of its page ids. -/

def POOL_SIZE : Nat := 8
def MAX_PAGES_PER_BROWSER : Nat := 10
def BROWSER_RESTART_THRESHOLD : Nat := 100

structure BrowserInstance where
  pages : List String
  activePages : Nat
  createdAt : Nat
  lastUsed : Nat
  processingTasks : Nat
deriving Repr, DecidableEq

/-- Outcomes of the puppeteer calls a single `executeTask` run performs:
whether `browser.newPage()` resolves, whether `page.setContent` (and the
font wait) resolves, what `page.screenshot` produces (`none` = it throws),
and whether the `page.close()` in the `finally` block resolves. -/
structure PageEnv where
  newPageOk : Bool
  setContentOk : Bool
  screenshotResult : Option (List Nat)
  closeOk : Bool

/-- The JPEG signature check of `executeTask`:
`jpegHeader[0] === 0xff && jpegHeader[1] === 0xd8 && jpegHeader[2] === 0xff`
(a missing index reads as `undefined`, which compares unequal, hence the `0`
default). -/
def isValidJPEG (buf : List Nat) : Bool :=
  buf.getD 0 0 == 0xff && buf.getD 1 0 == 0xd8 && buf.getD 2 0 == 0xff

/-- The `try` block of `executeTask` from page creation onward: each stage
either proceeds or throws with the source's error message. -/
def executeTaskBody (env : PageEnv) : Except String (List Nat) :=
  if !env.newPageOk then .error "newPage failed"
  else if !env.setContentOk then .error "Navigation timeout"
  else match env.screenshotResult with
    | none => .error "screenshot failed"
    | some shot =>
      if shot.length == 0 then .error "Пустой скриншот"
      else if !(isValidJPEG shot) then .error "Невалидный JPEG файл"
      else .ok shot

structure TaskResult where
  outcome : Except String (List Nat)
  browser : BrowserInstance
  restartScheduled : Bool

/-- `executeTask(browserId, options)` acting on one `BrowserInstance`:
increments `activePages`/`processingTasks` and stamps `lastUsed` on entry,
registers the new page in the `pages` map once `newPage()` resolves, runs
the render stages, and in the `finally` block closes/unregisters the page
(the `pages.delete` is skipped when `page.close()` itself throws, matching
the `try/catch` there), decrements both counters, and schedules
`destroyBrowser` when `processingTasks >= BROWSER_RESTART_THRESHOLD`. -/
def executeTask (env : PageEnv) (bi : BrowserInstance) (pageId : String)
    (now : Nat) : TaskResult :=
  let bi1 : BrowserInstance :=
    { bi with activePages := bi.activePages + 1,
              processingTasks := bi.processingTasks + 1, lastUsed := now }
  let bi2 := if env.newPageOk then { bi1 with pages := bi1.pages ++ [pageId] } else bi1
  let outcome := executeTaskBody env
  let bi3 :=
    if env.newPageOk then
      (if env.closeOk then { bi2 with pages := bi2.pages.erase pageId } else bi2)
    else bi2
  let bi4 := { bi3 with activePages := bi3.activePages - 1,
                        processingTasks := bi3.processingTasks - 1 }
  { outcome := outcome, browser := bi4,
    restartScheduled := decide (bi4.processingTasks ≥ BROWSER_RESTART_THRESHOLD) }

/-- C5: every buffer with which a task is fulfilled is non-empty and starts
with the JPEG signature `0xFF 0xD8 0xFF`; a screenshot that fails this
validation always produces a rejection, never a successful result. -/
theorem C5_valid_jpeg_only (env : PageEnv) (bi : BrowserInstance)
    (pageId : String) (now : Nat) :
    (∀ buf, (executeTask env bi pageId now).outcome = .ok buf →
        buf ≠ [] ∧ buf.getD 0 0 = 0xff ∧ buf.getD 1 0 = 0xd8 ∧
        buf.getD 2 0 = 0xff) ∧
    (∀ shot, env.screenshotResult = some shot → isValidJPEG shot = false →
        ∃ e, (executeTask env bi pageId now).outcome = .error e) := by
  constructor
  · intro buf hok
    have h : executeTaskBody env = Except.ok buf := hok
    unfold executeTaskBody at h
    split at h
    · simp at h
    split at h
    · simp at h
    split at h
    · simp at h
    rename_i shot heq
    split at h
    · simp at h
    split at h
    · simp at h
    rename_i hlen hjpg
    cases h
    have hlen2 : buf.length ≠ 0 := by simpa using hlen
    have hjpg2 : isValidJPEG buf = true := by simpa using hjpg
    simp only [isValidJPEG, Bool.and_eq_true, beq_iff_eq] at hjpg2
    refine ⟨fun hnil => hlen2 (by simp [hnil]), hjpg2.1.1, hjpg2.1.2, hjpg2.2⟩
  · intro shot hshot hbad
    have hout : (executeTask env bi pageId now).outcome = executeTaskBody env := rfl
    rw [hout]
    unfold executeTaskBody
    cases hnp : env.newPageOk with
    | false => exact ⟨_, rfl⟩
    | true =>
      cases hsc : env.setContentOk with
      | false => exact ⟨_, rfl⟩
      | true =>
        by_cases hlen : shot.length = 0
        · simp only [hshot, Bool.not_true, Bool.false_eq_true, if_false]
          simp only [hlen, beq_self_eq_true, if_true]
          exact ⟨_, rfl⟩
        · simp only [hshot, Bool.not_true, Bool.false_eq_true, if_false]
          simp [hlen, hbad]

/-- Witness for C5: a run whose screenshot evaluates to `ok` and whose
buffer therefore carries the JPEG signature. -/
theorem C5_valid_jpeg_only_witness :
    ([0xff, 0xd8, 0xff, 1] : List Nat) ≠ [] ∧
    ([0xff, 0xd8, 0xff, 1] : List Nat).getD 0 0 = 0xff ∧
    ([0xff, 0xd8, 0xff, 1] : List Nat).getD 1 0 = 0xd8 ∧
    ([0xff, 0xd8, 0xff, 1] : List Nat).getD 2 0 = 0xff :=
  (C5_valid_jpeg_only ⟨true, true, some [0xff, 0xd8, 0xff, 1], true⟩
    ⟨[], 0, 0, 0, 0⟩ "p" 7).1 [0xff, 0xd8, 0xff, 1] rfl

theorem erase_append_self (p : String) (l : List String) (h : p ∉ l) :
    (l ++ [p]).erase p = l := by
  induction l with
  | nil => simp
  | cons a t ih =>
      simp only [List.mem_cons, not_or] at h
      have hne : (a == p) = false := beq_eq_false_iff_ne.mpr (fun hh => h.1 hh.symm)
      simp [List.erase_cons, hne, ih h.2]

/-- C7 counterexample: a run whose render succeeds — the task returns a
screenshot buffer — but whose `page.close()` in the `finally` block throws.
The source's `catch` there only logs and skips `pages.delete(pageId)`, so
the page is neither closed nor removed from the target's page map: the
claimed unconditional removal and the frame condition on the target's
fields fail at this input. -/
theorem C7_counterexample_close_failure_leaks_page :
    (executeTask ⟨true, true, some [0xff, 0xd8, 0xff, 1], false⟩
        ⟨[], 0, 0, 0, 0⟩ "p" 9).outcome = Except.ok [0xff, 0xd8, 0xff, 1] ∧
    (executeTask ⟨true, true, some [0xff, 0xd8, 0xff, 1], false⟩
        ⟨[], 0, 0, 0, 0⟩ "p" 9).browser.pages = ["p"] ∧
    "p" ∈ (executeTask ⟨true, true, some [0xff, 0xd8, 0xff, 1], false⟩
        ⟨[], 0, 0, 0, 0⟩ "p" 9).browser.pages ∧
    (executeTask ⟨true, true, some [0xff, 0xd8, 0xff, 1], false⟩
        ⟨[], 0, 0, 0, 0⟩ "p" 9).browser.pages ≠
      (⟨[], 0, 0, 0, 0⟩ : BrowserInstance).pages :=
  ⟨rfl, rfl, by decide, by decide⟩

/-- C7 amended: provided the `page.close()` of the `finally` block itself
resolves, then whether the render task returns a screenshot buffer or throws
at any stage (page creation, content load, capture, validation — all of
which `PageEnv` ranges over), the page opened for the task is removed from
the target's page map, `activePages` (and `processingTasks`) return to their
values from before the task, and no field other than `lastUsed` changes;
when `page.close()` itself throws, the map entry leaks (the counterexample
run above), though the counters are still restored. -/
theorem C7_page_release (env : PageEnv) (bi : BrowserInstance) (pageId : String)
    (now : Nat) (hclose : env.closeOk = true) (hfresh : pageId ∉ bi.pages) :
    (executeTask env bi pageId now).browser.pages = bi.pages ∧
    pageId ∉ (executeTask env bi pageId now).browser.pages ∧
    (executeTask env bi pageId now).browser.activePages = bi.activePages ∧
    (executeTask env bi pageId now).browser.processingTasks = bi.processingTasks ∧
    (executeTask env bi pageId now).browser.createdAt = bi.createdAt ∧
    (executeTask env bi pageId now).browser.lastUsed = now := by
  unfold executeTask
  cases hnp : env.newPageOk with
  | false => simp [hclose, hfresh]
  | true => simp [hclose, hfresh, erase_append_self pageId bi.pages hfresh]

/-- Witness for C7: a concrete failing run (screenshot throws). -/
theorem C7_page_release_witness :
    (executeTask ⟨true, true, none, true⟩ ⟨["q"], 1, 2, 3, 4⟩ "p" 9).browser.pages
        = (⟨["q"], 1, 2, 3, 4⟩ : BrowserInstance).pages ∧
    "p" ∉ (executeTask ⟨true, true, none, true⟩ ⟨["q"], 1, 2, 3, 4⟩ "p" 9).browser.pages ∧
    (executeTask ⟨true, true, none, true⟩ ⟨["q"], 1, 2, 3, 4⟩ "p" 9).browser.activePages
        = (⟨["q"], 1, 2, 3, 4⟩ : BrowserInstance).activePages ∧
    (executeTask ⟨true, true, none, true⟩ ⟨["q"], 1, 2, 3, 4⟩ "p" 9).browser.processingTasks
        = (⟨["q"], 1, 2, 3, 4⟩ : BrowserInstance).processingTasks ∧
    (executeTask ⟨true, true, none, true⟩ ⟨["q"], 1, 2, 3, 4⟩ "p" 9).browser.createdAt
        = (⟨["q"], 1, 2, 3, 4⟩ : BrowserInstance).createdAt ∧
    (executeTask ⟨true, true, none, true⟩ ⟨["q"], 1, 2, 3, 4⟩ "p" 9).browser.lastUsed = 9 :=
  C7_page_release ⟨true, true, none, true⟩ ⟨["q"], 1, 2, 3, 4⟩ "p" 9 rfl (by decide)

/-- Sequential execution of a list of tasks on one browser (each task's
`finally` completes before the next is dispatched), collecting whether any
run ever scheduled a `destroyBrowser` via the restart check. -/
def runTasks (bi : BrowserInstance) : List (PageEnv × String × Nat) → BrowserInstance × Bool
  | [] => (bi, false)
  | (env, pid, now) :: rest =>
      let r := executeTask env bi pid now
      let (bf, flag) := runTasks r.browser rest
      (bf, r.restartScheduled || flag)

theorem executeTask_processingTasks (env : PageEnv) (bi : BrowserInstance)
    (pageId : String) (now : Nat) :
    (executeTask env bi pageId now).browser.processingTasks = bi.processingTasks ∧
    (executeTask env bi pageId now).restartScheduled
      = decide (bi.processingTasks ≥ BROWSER_RESTART_THRESHOLD) := by
  unfold executeTask
  cases env.newPageOk <;> cases env.closeOk <;> simp

/-- C2 (code bug): the restart check of `executeTask` compares
`processingTasks` — an in-flight counter that was just decremented back in
the same `finally` block — against `BROWSER_RESTART_THRESHOLD`, not a
cumulative count of executed tasks. Hence a browser that starts idle never
has a restart scheduled, no matter how many tasks it executes sequentially
(in particular not at the 100th task), and its `processingTasks` is restored
after every run, so no cumulative count exists that could reach the
threshold. -/
theorem C2_restart_never_scheduled (tasks : List (PageEnv × String × Nat))
    (pages : List String) (c l : Nat) :
    (runTasks ⟨pages, 0, c, l, 0⟩ tasks).2 = false := by
  suffices h : ∀ (ts : List (PageEnv × String × Nat)) (bi : BrowserInstance),
      bi.processingTasks = 0 → (runTasks bi ts).2 = false by
    exact h tasks ⟨pages, 0, c, l, 0⟩ rfl
  intro ts
  induction ts with
  | nil => intro bi _; rfl
  | cons t rest ih =>
      intro bi hbi
      obtain ⟨env, pid, now⟩ := t
      have hp := executeTask_processingTasks env bi pid now
      simp only [runTasks]
      rw [(by rfl :
        (runTasks (executeTask env bi pid now).browser rest).2
          = (runTasks (executeTask env bi pid now).browser rest).2)]
      have h1 : (executeTask env bi pid now).restartScheduled = false := by
        rw [hp.2, hbi]
        decide
      have h2 : (runTasks (executeTask env bi pid now).browser rest).2 = false :=
        ih _ (by rw [hp.1, hbi])
      simp only [h1, Bool.false_or]
      exact h2

/-! Pool-level bookkeeping (`browserPool : Map<string, BrowserInstance>` and
`availableBrowsers : string[]`), mutated by `createBrowser`,
`destroyBrowser` and `handleBrowserDisconnect` (which just delegates to
`destroyBrowser`). The map is an insertion-ordered association list, as a JS
`Map` is. -/

structure PoolState where
  browserPool : List (String × BrowserInstance)
  availableBrowsers : List String
  browsersCreated : Nat
  browsersDestroyed : Nat

def initialPool : PoolState := ⟨[], [], 0, 0⟩

def poolKeys (s : PoolState) : List String := s.browserPool.map Prod.fst

/-- `createBrowser` after a successful `puppeteer.launch`:
`browserPool.set(browserId, instance)`, `availableBrowsers.push(browserId)`,
`metrics.browsersCreated++`. (A failed launch throws before any of these, so
it leaves the state untouched and is not a transition.) -/
def createBrowserOp (s : PoolState) (id : String) (bi : BrowserInstance) : PoolState :=
  { s with browserPool := s.browserPool ++ [(id, bi)],
           availableBrowsers := s.availableBrowsers ++ [id],
           browsersCreated := s.browsersCreated + 1 }

/-- `Map.delete(id)` on the association list. -/
def removeKey : List (String × BrowserInstance) → String → List (String × BrowserInstance)
  | [], _ => []
  | (k, v) :: rest, id => if k = id then rest else (k, v) :: removeKey rest id

/-- `destroyBrowser(browserId)`: a no-op when the id is no longer in the
pool; otherwise closes the pages and the browser, then removes the map entry
and splices the id out of `availableBrowsers`. When `browser.close()` throws,
the `catch` only logs, so neither structure is touched (`closeOk = false`). -/
def destroyBrowserOp (s : PoolState) (id : String) (closeOk : Bool) : PoolState :=
  match s.browserPool.lookup id with
  | none => s
  | some _ =>
      if closeOk then
        { s with browserPool := removeKey s.browserPool id,
                 availableBrowsers := s.availableBrowsers.erase id,
                 browsersDestroyed := s.browsersDestroyed + 1 }
      else s

/-- Pool states reachable through the bookkeeping operations; fresh ids in
`createBrowser` are guaranteed by the `browser_${Date.now()}_${random}`
naming. `handleBrowserDisconnect` is `destroyBrowserOp` and needs no extra
constructor. -/
inductive PoolReachable : PoolState → Prop
  | init : PoolReachable initialPool
  | create {s} (id : String) (bi : BrowserInstance) :
      PoolReachable s → id ∉ poolKeys s → PoolReachable (createBrowserOp s id bi)
  | destroy {s} (id : String) (closeOk : Bool) :
      PoolReachable s → PoolReachable (destroyBrowserOp s id closeOk)

theorem removeKey_map_fst (pool : List (String × BrowserInstance)) (id : String) :
    (removeKey pool id).map Prod.fst = (pool.map Prod.fst).erase id := by
  induction pool with
  | nil => rfl
  | cons p rest ih =>
      obtain ⟨k, v⟩ := p
      by_cases hk : k = id
      · simp [removeKey, hk, List.erase_cons]
      · have hne : (k == id) = false := beq_eq_false_iff_ne.mpr hk
        simp [removeKey, hk, List.erase_cons, hne, ih]

theorem lookup_none_not_mem {pool : List (String × BrowserInstance)} {id : String}
    (h : pool.lookup id = none) : id ∉ pool.map Prod.fst := by
  induction pool with
  | nil => simp
  | cons p rest ih =>
      obtain ⟨k, v⟩ := p
      simp only [List.lookup] at h
      by_cases hk : id = k
      · simp [hk, beq_self_eq_true] at h
      · have hne : (id == k) = false := beq_eq_false_iff_ne.mpr hk
        rw [hne] at h
        simp only [List.map_cons, List.mem_cons, not_or]
        exact ⟨hk, ih h⟩

/-- C10: after every pool bookkeeping operation, `availableBrowsers` is
exactly the key list of the `browserPool` map (same ids, same multiplicity —
in fact the same list, without duplicates); hence a browser stays in
`availableBrowsers` even at full page capacity, and the `availableBrowsers`
metric of `getMetrics` always equals `totalBrowsers`. -/
theorem C10_bookkeeping_sync (s : PoolState) (h : PoolReachable s) :
    s.availableBrowsers = poolKeys s ∧
    s.availableBrowsers.Nodup ∧
    s.availableBrowsers.length = s.browserPool.length ∧
    ∀ id bi, (id, bi) ∈ s.browserPool → id ∈ s.availableBrowsers := by
  have main : s.availableBrowsers = poolKeys s ∧ s.availableBrowsers.Nodup := by
    induction h with
    | init => exact ⟨rfl, List.nodup_nil⟩
    | create id bi hr hfresh ih =>
        obtain ⟨heq, hnd⟩ := ih
        constructor
        · simp [createBrowserOp, poolKeys, heq]
        · simp only [createBrowserOp]
          rw [heq] at hnd ⊢
          have : id ∉ poolKeys _ := hfresh
          simp [List.nodup_append, hnd, this]
    | destroy id closeOk hr ih =>
        obtain ⟨heq, hnd⟩ := ih
        unfold destroyBrowserOp
        cases hl : List.lookup id _ with
        | none => exact ⟨heq, hnd⟩
        | some bi =>
            cases closeOk with
            | false => exact ⟨heq, hnd⟩
            | true =>
                constructor
                · simp only [if_true, poolKeys, removeKey_map_fst, heq]
                · simp only [if_true]
                  exact List.Nodup.erase id (heq ▸ hnd)
  obtain ⟨heq, hnd⟩ := main
  refine ⟨heq, hnd, ?_, ?_⟩
  · rw [heq]
    simp [poolKeys]
  · intro id bi hmem
    rw [heq]
    exact List.mem_map.mpr ⟨(id, bi), hmem, rfl⟩

/-- Witness for C10 at a concrete reachable state (one created browser). -/
theorem C10_bookkeeping_sync_witness :
    (createBrowserOp initialPool "b1" ⟨[], 0, 0, 0, 0⟩).availableBrowsers
        = poolKeys (createBrowserOp initialPool "b1" ⟨[], 0, 0, 0, 0⟩) ∧
    (createBrowserOp initialPool "b1" ⟨[], 0, 0, 0, 0⟩).availableBrowsers.Nodup ∧
    (createBrowserOp initialPool "b1" ⟨[], 0, 0, 0, 0⟩).availableBrowsers.length
        = (createBrowserOp initialPool "b1" ⟨[], 0, 0, 0, 0⟩).browserPool.length :=
  have h := C10_bookkeeping_sync _
    (PoolReachable.create "b1" ⟨[], 0, 0, 0, 0⟩ PoolReachable.init (by simp [initialPool, poolKeys]))
  ⟨h.1, h.2.1, h.2.2.1⟩

/-! The dispatch path `generateImage → processQueue → getAvailableBrowser →
executeTask`. `getAvailableBrowser` returns a browser id only while that
browser's `activePages < MAX_PAGES_PER_BROWSER`, but the `activePages++` of
`executeTask` runs only after the `await` on `getAvailableBrowser` resolves,
so several dispatches triggered in the same tick can all pass the capacity
check before any of them increments the counter. For one browser:
`selected` counts dispatches that sit between the capacity check and the
increment; `select` is the check inside `getAvailableBrowser`, `start` is
the synchronous prologue of `executeTask`, `finish` is the `activePages--`
of its `finally` block. -/

structure DispatchState where
  activePages : Nat
  selected : Nat
deriving Repr, DecidableEq

inductive DispatchStep : DispatchState → DispatchState → Prop
  | select (s : DispatchState) : s.activePages < MAX_PAGES_PER_BROWSER →
      DispatchStep s ⟨s.activePages, s.selected + 1⟩
  | start (s : DispatchState) : 0 < s.selected →
      DispatchStep s ⟨s.activePages + 1, s.selected - 1⟩
  | finish (s : DispatchState) : 0 < s.activePages →
      DispatchStep s ⟨s.activePages - 1, s.selected⟩

inductive DispatchReachable : DispatchState → Prop
  | init : DispatchReachable ⟨0, 0⟩
  | step {s t} : DispatchReachable s → DispatchStep s t → DispatchReachable t

theorem dispatch_reach_level : ∀ n, n ≤ MAX_PAGES_PER_BROWSER → DispatchReachable ⟨n, 0⟩ := by
  intro n
  induction n with
  | zero => intro _; exact DispatchReachable.init
  | succ m ih =>
      intro hm
      have hprev : DispatchReachable ⟨m, 0⟩ := ih (by omega)
      have hsel : DispatchStep ⟨m, 0⟩ ⟨m, 1⟩ :=
        DispatchStep.select ⟨m, 0⟩ (by simp only [MAX_PAGES_PER_BROWSER] at hm ⊢; omega)
      have hst : DispatchStep ⟨m, 1⟩ ⟨m + 1, 0⟩ := DispatchStep.start ⟨m, 1⟩ Nat.one_pos
      exact DispatchReachable.step (DispatchReachable.step hprev hsel) hst

/-- C3 counterexample: two dispatches that both pass the `activePages <
MAX_PAGES_PER_BROWSER` check at a browser with nine open pages, before
either runs `activePages++`, drive the counter to eleven — an observable
instant at which `activePages` exceeds `MAX_PAGES_PER_BROWSER`, refuting
the claimed invariant. -/
theorem C3_counterexample_cap_exceeded :
    DispatchReachable ⟨MAX_PAGES_PER_BROWSER + 1, 0⟩ ∧
    MAX_PAGES_PER_BROWSER < MAX_PAGES_PER_BROWSER + 1 := by
  constructor
  · have h9 : DispatchReachable ⟨9, 0⟩ := dispatch_reach_level 9 (by decide)
    have h1 := DispatchReachable.step h9 (DispatchStep.select ⟨9, 0⟩ (by decide))
    have h2 := DispatchReachable.step h1 (DispatchStep.select ⟨9, 1⟩ (by decide))
    have h3 := DispatchReachable.step h2 (DispatchStep.start ⟨9, 2⟩ (by decide))
    have h4 := DispatchReachable.step h3 (DispatchStep.start ⟨10, 1⟩ (by decide))
    exact h4
  · decide

/-- The same dispatch cycle with the capacity check and the increment fused
into one atomic step — i.e. no second dispatch interleaves between
`getAvailableBrowser`'s check and `executeTask`'s `activePages++`. -/
inductive AtomicDispatchStep : Nat → Nat → Prop
  | dispatch (a : Nat) : a < MAX_PAGES_PER_BROWSER → AtomicDispatchStep a (a + 1)
  | finish (a : Nat) : 0 < a → AtomicDispatchStep a (a - 1)

inductive AtomicReachable : Nat → Prop
  | init : AtomicReachable 0
  | step {a b} : AtomicReachable a → AtomicDispatchStep a b → AtomicReachable b

/-- C3 amended: each dispatch assigns a task only to a browser whose
`activePages` is strictly below `MAX_PAGES_PER_BROWSER` at the moment of the
check, and when dispatches are serialized — no dispatch interleaves between
another dispatch's capacity check and its `activePages++` — the counter
never exceeds `MAX_PAGES_PER_BROWSER`; concurrent dispatches suspended at
that `await` boundary can exceed the cap. -/
theorem C3_amended_serialized_cap (a : Nat) (h : AtomicReachable a) :
    a ≤ MAX_PAGES_PER_BROWSER := by
  induction h with
  | init => exact Nat.zero_le _
  | step hr hstep ih =>
      cases hstep with
      | dispatch hlt => omega
      | finish hpos => omega

/-- Witness for the amended C3 at the initial (idle) browser. -/
theorem C3_amended_serialized_cap_witness : (0 : Nat) ≤ MAX_PAGES_PER_BROWSER :=
  C3_amended_serialized_cap 0 AtomicReachable.init

/-! The pending task queue. In the pool this is `processingQueue`
(`generateImage` pushes at the tail, `processQueue` shifts from the head,
the per-task timeout and the cleanup sweep splice single tasks out of the
middle); `taskQueue` of `ImageQueueService` has the identical discipline.
Tasks are represented by their submission sequence number (`createdAt`
order), and `shift` records which task a dispatch pops. -/

structure QueueState where
  queue : List Nat
  nextSeq : Nat
deriving Repr, DecidableEq

inductive QueueStep : QueueState → QueueState → Prop
  | push (s : QueueState) : QueueStep s ⟨s.queue ++ [s.nextSeq], s.nextSeq + 1⟩
  | shift (s : QueueState) (t : Nat) (rest : List Nat) :
      s.queue = t :: rest → QueueStep s ⟨rest, s.nextSeq⟩
  | splice (s : QueueState) (l : List Nat) (x : Nat) (r : List Nat) :
      s.queue = l ++ x :: r → QueueStep s ⟨l ++ r, s.nextSeq⟩

inductive QueueReachable : QueueState → Prop
  | init : QueueReachable ⟨[], 0⟩
  | step {s t} : QueueReachable s → QueueStep s t → QueueReachable t

theorem queue_sorted_bounded (s : QueueState) (h : QueueReachable s) :
    s.queue.Pairwise (· < ·) ∧ ∀ x ∈ s.queue, x < s.nextSeq := by
  induction h with
  | init => simp
  | step hr hstep ih =>
      obtain ⟨hpw, hbd⟩ := ih
      cases hstep with
      | push =>
          constructor
          · rw [List.pairwise_append]
            exact ⟨hpw, List.pairwise_singleton _ _, by
              intro a ha b hb
              rw [List.mem_singleton] at hb
              subst hb
              exact hbd a ha⟩
          · intro x hx
            rcases List.mem_append.mp hx with hx | hx
            · exact Nat.lt_succ_of_lt (hbd x hx)
            · rw [List.mem_singleton] at hx
              subst hx
              exact Nat.lt_succ_self _
      | shift t rest hq =>
          rw [hq] at hpw hbd
          exact ⟨(List.pairwise_cons.mp hpw).2, fun x hx => hbd x (List.mem_cons_of_mem t hx)⟩
      | splice l x r hq =>
          rw [hq] at hpw hbd
          have hsub : (l ++ r).Sublist (l ++ x :: r) :=
            ((List.Sublist.refl r).cons x).append_left l
          exact ⟨hpw.sublist hsub, fun y hy => hbd y (hsub.mem hy)⟩

/-- C4: queue dispatch is strict FIFO at the point of popping: in every
reachable queue state the pending tasks sit in submission order, and the
task a `shift` dispatch pops (the head) is no younger than any task queued
at that moment — no task jumps ahead of an older queued task. -/
theorem C4_fifo_dispatch (s : QueueState) (h : QueueReachable s) :
    s.queue.Pairwise (· < ·) ∧
    ∀ t rest, s.queue = t :: rest → ∀ x ∈ s.queue, t ≤ x := by
  have hpw := (queue_sorted_bounded s h).1
  refine ⟨hpw, ?_⟩
  intro t rest hq x hx
  rw [hq] at hpw hx
  rcases List.mem_cons.mp hx with hx | hx
  · omega
  · exact Nat.le_of_lt ((List.pairwise_cons.mp hpw).1 x hx)

/-- Witness for C4 at the reachable state with two queued tasks `0, 1`:
the popped head `0` is no younger than the remaining task `1`. -/
theorem C4_fifo_dispatch_witness : (0 : Nat) ≤ 1 :=
  (C4_fifo_dispatch ⟨[0, 1], 2⟩
      (QueueReachable.step
        (QueueReachable.step QueueReachable.init (QueueStep.push ⟨[], 0⟩))
        (QueueStep.push ⟨[0], 1⟩))).2 0 [1] rfl 1 (by simp)

end Pool

namespace ImageQueue

/-! Model of `ImageQueueService` (`src/services/imageQueueService.ts`):
the `taskQueue` FIFO, the `MAX_QUEUE_SIZE` admission check of
`generateImage`, dispatch to a free worker in `processQueue`, worker replies
in `handleWorkerMessage`, and the per-task timeout callback. -/

structure ImageGenerationTask where
  id : String
  html : String
  width : Nat
  height : Nat
  quality : Nat
  optimizeForSpeed : Bool
  createdAt : Nat
deriving Repr, DecidableEq

def MAX_QUEUE_SIZE : Nat := 100

/-- `ImageQueueService.generateImage`: rejects the submission when
`taskQueue.length >= MAX_QUEUE_SIZE` (before anything is enqueued),
otherwise pushes the task at the tail. The push happens synchronously with
the check — no `await` separates them. -/
def generateImage (queue : List ImageGenerationTask) (task : ImageGenerationTask) :
    Except String (List ImageGenerationTask) :=
  if queue.length ≥ MAX_QUEUE_SIZE then
    Except.error "Очередь переполнена. Максимальный размер: 100"
  else
    Except.ok (queue ++ [task])

/-- Queue contents reachable through the service's own operations:
admission-checked submission, `processQueue`'s `shift`, and the
timeout splice. -/
inductive IQReachable : List ImageGenerationTask → Prop
  | init : IQReachable []
  | submit {q} (t : ImageGenerationTask) (q' : List ImageGenerationTask) :
      IQReachable q → generateImage q t = Except.ok q' → IQReachable q'
  | dispatchShift {q} (t : ImageGenerationTask) (rest : List ImageGenerationTask) :
      IQReachable q → q = t :: rest → IQReachable rest
  | timeoutSplice {q} (l : List ImageGenerationTask) (x : ImageGenerationTask)
      (r : List ImageGenerationTask) :
      IQReachable q → q = l ++ x :: r → IQReachable (l ++ r)

/-- C6: a `generateImage` call made while the queue has reached
`MAX_QUEUE_SIZE` is rejected immediately with the overflow error and
enqueues nothing, and consequently no reachable queue ever holds more than
`MAX_QUEUE_SIZE` tasks. -/
theorem C6_backpressure :
    (∀ (q : List ImageGenerationTask) (t : ImageGenerationTask),
        MAX_QUEUE_SIZE ≤ q.length →
        generateImage q t = Except.error "Очередь переполнена. Максимальный размер: 100") ∧
    (∀ q, IQReachable q → q.length ≤ MAX_QUEUE_SIZE) := by
  constructor
  · intro q t hlen
    unfold generateImage
    rw [if_pos hlen]
  · intro q h
    induction h with
    | init => simp [MAX_QUEUE_SIZE]
    | submit t q' hr hok ih =>
        unfold generateImage at hok
        split at hok
        · cases hok
        · cases hok
          rename_i hlen
          simp only [List.length_append, List.length_singleton]
          omega
    | dispatchShift t rest hr hq ih =>
        rw [hq] at ih
        simp only [List.length_cons] at ih
        omega
    | timeoutSplice l x r hr hq ih =>
        rw [hq] at ih
        simp only [List.length_append, List.length_cons] at ih ⊢
        omega

/-- Witness for C6: a full queue of 100 tasks rejects the 101st submission,
and the empty queue is within the ceiling. -/
theorem C6_backpressure_witness :
    generateImage (List.replicate 100 ⟨"t", "h", 550, 800, 85, true, 0⟩)
        ⟨"t", "h", 550, 800, 85, true, 0⟩
      = Except.error "Очередь переполнена. Максимальный размер: 100" ∧
    ([] : List ImageGenerationTask).length ≤ MAX_QUEUE_SIZE :=
  ⟨C6_backpressure.1 _ _ (by simp [MAX_QUEUE_SIZE]),
   C6_backpressure.2 [] IQReachable.init⟩

/-! The promise-settlement bookkeeping of `ImageQueueService`. Each task's
promise records every `resolve`/`reject` call made on it; `dispatched`
records the ids `processQueue` has handed to a worker. `handleWorkerMessage`
looks the reported task id up with `findTaskById`, which searches
`taskQueue` — the queue the task was `shift`ed out of at dispatch — and the
timeout callback likewise only fires for tasks still in `taskQueue`. -/

inductive Settlement where
  | resolved
  | rejected (msg : String)
deriving Repr, DecidableEq

inductive QEvent where
  | submit (t : ImageGenerationTask)
  | dispatch
  | workerMessage (taskId : String) (success : Bool)
  | timeoutFire (taskId : String)

structure ServiceState where
  taskQueue : List ImageGenerationTask
  dispatched : List String
  settlements : List (String × Settlement)
deriving Repr, DecidableEq

/-- `findTaskById(taskId)`: `this.taskQueue.find(t => t.id === taskId)`. -/
def findTaskById (queue : List ImageGenerationTask) (taskId : String) :
    Option ImageGenerationTask :=
  queue.find? (fun t => t.id == taskId)

/-- One synchronous handler of the service. `submit` is the enqueue of
`generateImage` (admission aside), `dispatch` is `processQueue` finding a
free worker and `shift`ing the head to it, `workerMessage` is
`handleWorkerMessage`, `timeoutFire` is the `setTimeout` callback armed at
submission. -/
def iqStep (s : ServiceState) : QEvent → ServiceState
  | QEvent.submit t => { s with taskQueue := s.taskQueue ++ [t] }
  | QEvent.dispatch =>
      match s.taskQueue with
      | [] => s
      | t :: rest => { s with taskQueue := rest, dispatched := s.dispatched ++ [t.id] }
  | QEvent.workerMessage taskId success =>
      match findTaskById s.taskQueue taskId with
      | none => s
      | some _ =>
          { s with settlements := s.settlements ++
              [(taskId, if success then Settlement.resolved
                        else Settlement.rejected "Неизвестная ошибка воркера")] }
  | QEvent.timeoutFire taskId =>
      match findTaskById s.taskQueue taskId with
      | none => s
      | some _ =>
          { s with taskQueue := s.taskQueue.eraseP (fun t => t.id == taskId),
                   settlements := s.settlements ++
                     [(taskId, Settlement.rejected "Таймаут генерации изображения")] }

def runService (events : List QEvent) : ServiceState :=
  events.foldl iqStep ⟨[], [], []⟩

def demoTask : ImageGenerationTask := ⟨"task_1", "<html></html>", 550, 800, 85, true, 0⟩

theorem iqStep_workerMessage_empty (d : List String) (st : List (String × Settlement))
    (taskId : String) (success : Bool) :
    iqStep ⟨[], d, st⟩ (QEvent.workerMessage taskId success) = ⟨[], d, st⟩ := rfl

theorem foldl_workerMessage_empty (d : List String) (st : List (String × Settlement))
    (taskId : String) (success : Bool) :
    ∀ k, List.foldl iqStep ⟨[], d, st⟩
        (List.replicate k (QEvent.workerMessage taskId success)) = ⟨[], d, st⟩ := by
  intro k
  induction k with
  | zero => rfl
  | succ m ih => simpa [List.replicate_succ, List.foldl_cons] using ih

/-- C1 (code bug): a task that is submitted and then dispatched to a worker
never settles — no matter how many worker replies arrive (successful or
not) and even when its timeout later fires, no `resolve` or `reject` is ever
invoked on its promise, because both `handleWorkerMessage` and the timeout
callback look the task up in `taskQueue`, from which dispatch already
removed it. -/
theorem C1_dispatched_task_never_settles (success : Bool) (k : Nat) :
    (runService ([QEvent.submit demoTask, QEvent.dispatch] ++
        List.replicate k (QEvent.workerMessage "task_1" success) ++
        [QEvent.timeoutFire "task_1"])).settlements = [] ∧
    (runService ([QEvent.submit demoTask, QEvent.dispatch] ++
        List.replicate k (QEvent.workerMessage "task_1" success) ++
        [QEvent.timeoutFire "task_1"])).dispatched = ["task_1"] := by
  have h0 : List.foldl iqStep ⟨[], [], []⟩ [QEvent.submit demoTask, QEvent.dispatch]
      = ⟨[], ["task_1"], []⟩ := rfl
  have hrun : runService ([QEvent.submit demoTask, QEvent.dispatch] ++
      List.replicate k (QEvent.workerMessage "task_1" success) ++
      [QEvent.timeoutFire "task_1"]) = ⟨[], ["task_1"], []⟩ := by
    unfold runService
    rw [List.foldl_append, List.foldl_append, h0,
        foldl_workerMessage_empty _ _ _ _ k]
    rfl
  rw [hrun]
  exact ⟨rfl, rfl⟩

end ImageQueue

namespace Relay

/-! Model of the sender side of `SimpleBotMessagingService.sendImage`
(`src/services/simpleBotMessaging.service.ts`): after `rpush`ing the
`DeliveryTask` onto the shared queue, the worker process polls the result
store (`image_result:{taskId}`) up to 450 times, sleeping 100 ms between
polls; on a hit it parses the entry, deletes it (`del`) and returns
`parsed.success === true`; after the budget it logs the timeout and returns
`false` — it neither throws nor keeps polling. `store i` is the value the
`i`-th redis `get` observes. -/

structure DeliveryResult where
  success : Bool
  errorText : Option String
deriving Repr, DecidableEq

def WAIT_BUDGET_POLLS : Nat := 450
def POLL_INTERVAL_MS : Nat := 100

def pollForResult (store : Nat → Option DeliveryResult) :
    Nat → Nat → Option (DeliveryResult × Nat)
  | 0, _ => none
  | fuel + 1, i =>
      match store i with
      | some r => some (r, i)
      | none => pollForResult store fuel (i + 1)

/-- What the wait loop of `sendImage` produces: the boolean the promise
resolves with, and the poll index at which the result-store entry was
deleted (`none` = no entry was ever observed, nothing to delete). -/
structure SendOutcome where
  result : Bool
  deletedEntryAt : Option Nat
deriving Repr, DecidableEq

def sendImageWait (store : Nat → Option DeliveryResult) : SendOutcome :=
  match pollForResult store WAIT_BUDGET_POLLS 0 with
  | some (r, i) => ⟨r.success == true, some i⟩
  | none => ⟨false, none⟩

theorem pollForResult_all_none (store : Nat → Option DeliveryResult) :
    ∀ (fuel i : Nat), (∀ j, j < fuel → store (i + j) = none) →
      pollForResult store fuel i = none := by
  intro fuel
  induction fuel with
  | zero => intro i _; rfl
  | succ m ih =>
      intro i h
      have h0 : store i = none := by simpa using h 0 (Nat.succ_pos m)
      simp only [pollForResult, h0]
      exact ih (i + 1) (fun j hj => by
        have := h (j + 1) (by omega)
        simpa [Nat.add_assoc, Nat.add_comm 1 j] using this)

theorem pollForResult_found (store : Nat → Option DeliveryResult) :
    ∀ (fuel i : Nat) (r : DeliveryResult) (j : Nat),
      pollForResult store fuel i = some (r, j) → store j = some r := by
  intro fuel
  induction fuel with
  | zero => intro i r j h; cases h
  | succ m ih =>
      intro i r j h
      simp only [pollForResult] at h
      cases hs : store i with
      | some v =>
          rw [hs] at h
          cases h
          exact hs
      | none =>
          rw [hs] at h
          exact ih (i + 1) r j h

/-- C9: when no delivery result appears in the result store during any of
the 450 polls of the wait budget, the sender's wait loop resolves to `false`
— it neither throws (it is a total function into `SendOutcome`) nor polls
beyond the budget — and no result-store entry was observed, so none is left
behind by the sender; and whenever the loop does observe an entry, it
deletes exactly that entry before returning. -/
theorem C9_timeout_resolves_false (store : Nat → Option DeliveryResult)
    (h : ∀ i, i < WAIT_BUDGET_POLLS → store i = none) :
    sendImageWait store = ⟨false, none⟩ ∧
    (∀ (g : Nat → Option DeliveryResult) (i : Nat),
        (sendImageWait g).deletedEntryAt = some i → (g i).isSome = true) := by
  constructor
  · unfold sendImageWait
    rw [pollForResult_all_none store WAIT_BUDGET_POLLS 0
        (fun j hj => by simpa using h j hj)]
  · intro g i hdel
    unfold sendImageWait at hdel
    cases hp : pollForResult g WAIT_BUDGET_POLLS 0 with
    | none => rw [hp] at hdel; cases hdel
    | some ri =>
        obtain ⟨r, j⟩ := ri
        rw [hp] at hdel
        cases hdel
        rw [pollForResult_found g WAIT_BUDGET_POLLS 0 r i hp]
        rfl

/-- Witness for C9: the store in which the owning process never responds. -/
theorem C9_timeout_resolves_false_witness :
    sendImageWait (fun _ => none) = ⟨false, none⟩ :=
  (C9_timeout_resolves_false (fun _ => none) (fun _ _ => rfl)).1

end Relay
